import Mathlib

/-!
Verification of the LLMConsole interactive shell front-end (`console.py`).

The embedding models the Python string operations used by the source
(`lower`, `strip`, substring `in`, `startswith`, slicing) as explicit
functions on the character lists underlying `String`, and models the
interactive loop of `main` as a state machine (`router`) consuming a list
of input events (typed lines, keyboard interrupts, end-of-input), emitting
a trace of observable effects (displayed text, translation-capability
calls, confirmation prompts, execution-capability calls).

The model-inference engine and the OS execution facility are external
collaborators, so they are passed in as oracle functions
(`CallRecord → ChatResponse` and `String → ExecOutcome`).
-/

/-- Python `str.lower()`, modelled character-wise. -/
def strLower (s : String) : String :=
  ⟨s.data.map Char.toLower⟩

/-- Python `str.strip()`: remove whitespace from both ends. -/
def strStrip (s : String) : String :=
  ⟨((s.data.dropWhile Char.isWhitespace).reverse.dropWhile Char.isWhitespace).reverse⟩

/-- Occurrence of `nee` as a contiguous run inside a character list
(Python's `in` operator on strings). -/
def containsSub (nee : List Char) : List Char → Bool
  | [] => nee.isEmpty
  | c :: t => nee.isPrefixOf (c :: t) || containsSub nee t

/-- Python `nee in hay` for strings. -/
def strContains (hay nee : String) : Bool :=
  containsSub nee.data hay.data

/-- Python `s.startswith(t)`. -/
def strStartsWith (s t : String) : Bool :=
  t.data.isPrefixOf s.data

/-- Python `s[1:]` (drop the first character). -/
def strDropOne (s : String) : String :=
  ⟨s.data.drop 1⟩

/-- Python `a or b` on optional environment-variable values: an unset
variable is `none`, an empty string is falsy. -/
def envOr (a b : Option String) : Option String :=
  match a with
  | none => b
  | some s => if s = "" then b else some s

/-- Function `detect_shell` from `console.py`: reads `SHELL` with `ComSpec` as
fallback, classifies by substring matching (`"bash"` case-sensitively,
`"powershell"` and `"cmd"` on the lowercased value). -/
def detect_shell (SHELL ComSpec : Option String) : String :=
  match envOr SHELL ComSpec with
  | none => "unknown"
  | some shell =>
    if strContains shell "bash" = true then "bash"
    else if strContains (strLower shell) "powershell" = true then "powershell"
    else if strContains (strLower shell) "cmd" = true then "cmd"
    else "unknown"

/-- Function `get_system_prompt` from `console.py`: the f-string template embedding
the detected shell name. -/
def get_system_prompt (shell : String) : String :=
  "You are an assistant that generates valid and safe shell commands for the \x27" ++ shell ++
    "\x27 environment. Always return a single shell command in response to the user\x27s request. Do not provide explanations."

/-- One chat message (`{"role": ..., "content": ...}`). -/
structure ChatMessage where
  role : String
  content : String
deriving DecidableEq, Repr

/-- The model's completion response: the list of choices, each reduced to
its message (the source only reads `choices[0]["message"]["content"]`).
An empty `choices` list models a malformed response, on which the Python
subscript raises. -/
structure ChatResponse where
  choices : List ChatMessage
deriving DecidableEq, Repr

/-- The argument record of a `create_chat_completion` call. -/
structure CallRecord where
  messages : List ChatMessage
  max_tokens : Nat
  stop : List String
deriving DecidableEq, Repr

/-- The call record `call_llm` builds: system message from
`get_system_prompt` on the detected shell, user message with the given
content, `max_tokens=50`, `stop=["\n"]`. -/
def llm_request (SHELL ComSpec : Option String) (command : String) : CallRecord :=
  ⟨[⟨"system", get_system_prompt (detect_shell SHELL ComSpec)⟩, ⟨"user", command⟩], 50, ["\n"]⟩

/-- The informational line `call_llm` prints after a successful call. -/
def echo_line (SHELL ComSpec : Option String) (suggested : String) : String :=
  "LLM suggested command for \x27" ++ detect_shell SHELL ComSpec ++ "\x27: " ++ suggested

/-- Function `call_llm` from `console.py`, parameterized by the model oracle.
Returns the call record it issued and, when the response has a first
choice, the stripped suggested command paired with the echo line it
prints. `none` models the uncaught `IndexError`/`KeyError` raised by
`response["choices"][0]` on a malformed response. -/
def call_llm (llm : CallRecord → ChatResponse) (SHELL ComSpec : Option String)
    (command : String) : CallRecord × Option (String × String) :=
  match (llm (llm_request SHELL ComSpec command)).choices with
  | [] => (llm_request SHELL ComSpec command, none)
  | m :: _ =>
      (llm_request SHELL ComSpec command,
        some (strStrip m.content, echo_line SHELL ComSpec (strStrip m.content)))

/-- Outcome of `subprocess.run` on one command. -/
structure ExecOutcome where
  returncode : Int
  stdout : String
  stderr : String
deriving DecidableEq, Repr

/-- Function `execute_command` from `console.py`, parameterized by the OS oracle:
prints captured stdout on exit code zero, and on non-zero exit catches
`CalledProcessError` and prints the captured stderr instead. It returns
the displayed text and never propagates the failure. -/
def execute_command (run : String → ExecOutcome) (command : String) : String :=
  if (run command).returncode = 0 then (run command).stdout else (run command).stderr

/-- One event delivered to a `session.prompt` call in `main`. -/
inductive InputEvent
  | line (s : String)
  | interrupt
  | eofSignal
deriving DecidableEq, Repr

/-- Observable effects of the interactive loop. -/
inductive Effect
  | display (s : String)
  | translate (req : CallRecord)
  | confirm (suggested : String)
  | exec (command : String)
deriving DecidableEq, Repr

/-- How a run of the loop ends: `terminated` is the clean `break`,
`crashed` is an exception escaping the `while` loop (and `main`),
`ranOut` means the supplied event list was exhausted while the loop
would still be waiting for input. -/
inductive LoopExit
  | terminated
  | crashed
  | ranOut
deriving DecidableEq, Repr

/-- Which prompt the next input event feeds: the main `> ` prompt, or the
confirmation prompt for a suggested command. -/
inductive RouterState
  | idle
  | awaiting (llm_command : String)
deriving DecidableEq, Repr

def isTranslateEffect : Effect → Bool
  | .translate _ => true
  | _ => false

def isExecEffect : Effect → Bool
  | .exec _ => true
  | _ => false

def isConfirmEffect : Effect → Bool
  | .confirm _ => true
  | _ => false

/-- A capability call: either the translation capability
(`create_chat_completion`) or the execution capability
(`subprocess.run`). -/
def isCapabilityCall : Effect → Bool
  | .translate _ => true
  | .exec _ => true
  | _ => false

/-- The `while True` loop of `main` from `console.py`, as a state machine
over the remaining input events. In `idle` the next line is classified
exactly as the source does: `user_input.lower() == "exit"` first, then
`user_input.startswith("!")`, else direct dispatch to `execute_command`.
On the trigger path the instruction is `user_input[1:].strip()`; a usable
model reply leads to the confirmation prompt (state `awaiting`), whose
answer is accepted when `confirmation.strip().lower()` is `"yes"` or
`"y"`. A `KeyboardInterrupt` at either prompt prints the cancellation
notice and continues; an `EOFError` prints the exiting notice and breaks.
A malformed model reply raises an exception no handler catches: the loop
(and the session) crashes. -/
def router (llm : CallRecord → ChatResponse) (run : String → ExecOutcome)
    (SHELL ComSpec : Option String) : RouterState → List InputEvent → List Effect × LoopExit
  | _, [] => ([], .ranOut)
  | _, .eofSignal :: _ => ([.display "\nExiting."], .terminated)
  | _, .interrupt :: rest =>
      let r := router llm run SHELL ComSpec .idle rest
      (.display "\nOperation canceled." :: r.1, r.2)
  | .idle, .line user_input :: rest =>
      if strLower user_input = "exit" then
        ([.display "Goodbye!"], .terminated)
      else if strStartsWith user_input "!" = true then
        match call_llm llm SHELL ComSpec (strStrip (strDropOne user_input)) with
        | (req, none) => ([.translate req], .crashed)
        | (req, some (llm_command, echo)) =>
            let r := router llm run SHELL ComSpec (.awaiting llm_command) rest
            (.translate req :: .display echo :: .confirm llm_command :: r.1, r.2)
      else
        let r := router llm run SHELL ComSpec .idle rest
        (.exec user_input :: .display (execute_command run user_input) :: r.1, r.2)
  | .awaiting llm_command, .line conf :: rest =>
      if strLower (strStrip conf) = "yes" ∨ strLower (strStrip conf) = "y" then
        let r := router llm run SHELL ComSpec .idle rest
        (.exec llm_command :: .display (execute_command run llm_command) :: r.1, r.2)
      else
        let r := router llm run SHELL ComSpec .idle rest
        (.display "Command execution skipped." :: r.1, r.2)

/-- The interactive loop of `main`, started at the main prompt. -/
def main_loop (llm : CallRecord → ChatResponse) (run : String → ExecOutcome)
    (SHELL ComSpec : Option String) (events : List InputEvent) : List Effect × LoopExit :=
  router llm run SHELL ComSpec .idle events

/-- A model oracle whose reply always carries an empty completion. -/
def llmEmptyContent : CallRecord → ChatResponse := fun _ => ⟨[⟨"assistant", ""⟩]⟩

/-- A model oracle whose reply is malformed: no choices at all. -/
def llmNoChoices : CallRecord → ChatResponse := fun _ => ⟨[]⟩

/-- An OS oracle where every command succeeds silently. -/
def runStub : String → ExecOutcome := fun _ => ⟨0, "", ""⟩

/-- An OS oracle where every command fails with exit code 1. -/
def runFailStub : String → ExecOutcome := fun _ => ⟨1, "out", "err"⟩

/-- A model oracle that always suggests `ls -la`. -/
def llmLs : CallRecord → ChatResponse := fun _ => ⟨[⟨"assistant", "ls -la"⟩]⟩

theorem isPrefixOf_self_append (nee t : List Char) : nee.isPrefixOf (nee ++ t) = true := by
  induction nee with
  | nil => simp
  | cons a as ih => simp [List.isPrefixOf_cons₂, ih]

theorem containsSub_of_isPrefixOf (nee l : List Char) (h : nee.isPrefixOf l = true) :
    containsSub nee l = true := by
  cases l with
  | nil =>
      cases nee with
      | nil => rfl
      | cons a as => simp [List.isPrefixOf] at h
  | cons c t => simp [containsSub, h]

theorem containsSub_append_left (nee pre l : List Char) (h : containsSub nee l = true) :
    containsSub nee (pre ++ l) = true := by
  induction pre with
  | nil => simpa using h
  | cons p ps ih => simp [containsSub, ih]

theorem containsSub_parts (nee s t : List Char) : containsSub nee (s ++ (nee ++ t)) = true :=
  containsSub_append_left nee s _ (containsSub_of_isPrefixOf nee _ (isPrefixOf_self_append nee t))

theorem isPrefixOf_ex (nee : List Char) : ∀ l, nee.isPrefixOf l = true → ∃ u, l = nee ++ u := by
  induction nee with
  | nil => exact fun l _ => ⟨l, rfl⟩
  | cons a as ih =>
      intro l h
      cases l with
      | nil => simp [List.isPrefixOf] at h
      | cons b bs =>
          rw [List.isPrefixOf_cons₂] at h
          simp only [Bool.and_eq_true, beq_iff_eq] at h
          obtain ⟨u, hu⟩ := ih bs h.2
          exact ⟨u, by rw [hu, h.1]; simp⟩

theorem containsSub_ex (nee : List Char) : ∀ l, containsSub nee l = true → ∃ s t, l = s ++ (nee ++ t) := by
  intro l
  induction l with
  | nil =>
      intro h
      have hnil : nee = [] := by
        cases nee with
        | nil => rfl
        | cons a as => simp [containsSub, List.isEmpty] at h
      exact ⟨[], [], by simp [hnil]⟩
  | cons c t ih =>
      intro h
      simp only [containsSub, Bool.or_eq_true] at h
      rcases h with h1 | h2
      · obtain ⟨u, hu⟩ := isPrefixOf_ex nee (c :: t) h1
        exact ⟨[], u, by simpa using hu⟩
      · obtain ⟨s, u, hu⟩ := ih h2
        exact ⟨c :: s, u, by rw [hu]; simp⟩

theorem strContains_lower (p nee : String) (hfix : nee.data.map Char.toLower = nee.data)
    (h : strContains p nee = true) : strContains (strLower p) nee = true := by
  obtain ⟨s, t, hst⟩ := containsSub_ex nee.data p.data h
  have hmap : (strLower p).data = s.map Char.toLower ++ (nee.data ++ t.map Char.toLower) := by
    show p.data.map Char.toLower = _
    rw [hst]
    simp [List.map_append, hfix]
  show containsSub nee.data (strLower p).data = true
  rw [hmap]
  exact containsSub_parts _ _ _

theorem bang_head (s : String) (h : strStartsWith s "!" = true) : ∃ t, s.data = '!' :: t := by
  unfold strStartsWith at h
  rcases hs : s.data with _ | ⟨c, t⟩
  · rw [hs] at h
    exact absurd h (by decide)
  · rw [hs] at h
    have h2 : ('!' == c && List.isPrefixOf [] t) = true := h
    simp only [List.isPrefixOf_nil_left, Bool.and_true, beq_iff_eq] at h2
    exact ⟨t, by rw [h2]⟩

theorem bang_not_exit (s : String) (h : strStartsWith s "!" = true) : strLower s ≠ "exit" := by
  obtain ⟨t, ht⟩ := bang_head s h
  intro he
  have hd : s.data.map Char.toLower = ['e', 'x', 'i', 't'] := congrArg String.data he
  rw [ht, List.map_cons] at hd
  injection hd with h1 _
  exact absurd h1 (by decide)

theorem call_llm_none (llm : CallRecord → ChatResponse) (S C : Option String) (cmd : String)
    (h : (llm (llm_request S C cmd)).choices = []) :
    call_llm llm S C cmd = (llm_request S C cmd, none) := by
  unfold call_llm
  rw [h]

theorem call_llm_cons (llm : CallRecord → ChatResponse) (S C : Option String) (cmd : String)
    (m : ChatMessage) (ms : List ChatMessage)
    (h : (llm (llm_request S C cmd)).choices = m :: ms) :
    call_llm llm S C cmd =
      (llm_request S C cmd, some (strStrip m.content, echo_line S C (strStrip m.content))) := by
  unfold call_llm
  rw [h]

theorem router_exit (llm : CallRecord → ChatResponse) (run : String → ExecOutcome)
    (S C : Option String) (s : String) (rest : List InputEvent) (h : strLower s = "exit") :
    router llm run S C .idle (.line s :: rest) = ([.display "Goodbye!"], .terminated) := by
  simp [router, h]

theorem router_direct (llm : CallRecord → ChatResponse) (run : String → ExecOutcome)
    (S C : Option String) (s : String) (rest : List InputEvent)
    (h1 : strLower s ≠ "exit") (h2 : strStartsWith s "!" = false) :
    router llm run S C .idle (.line s :: rest) =
      (.exec s :: .display (execute_command run s) :: (router llm run S C .idle rest).1,
        (router llm run S C .idle rest).2) := by
  simp [router, h1, h2]

theorem router_bang_crash (llm : CallRecord → ChatResponse) (run : String → ExecOutcome)
    (S C : Option String) (s : String) (rest : List InputEvent)
    (hb : strStartsWith s "!" = true)
    (h : (llm (llm_request S C (strStrip (strDropOne s)))).choices = []) :
    router llm run S C .idle (.line s :: rest) =
      ([.translate (llm_request S C (strStrip (strDropOne s)))], .crashed) := by
  have hne := bang_not_exit s hb
  simp [router, hne, hb, call_llm_none llm S C _ h]

theorem router_bang_ok (llm : CallRecord → ChatResponse) (run : String → ExecOutcome)
    (S C : Option String) (s : String) (rest : List InputEvent)
    (m : ChatMessage) (ms : List ChatMessage)
    (hb : strStartsWith s "!" = true)
    (h : (llm (llm_request S C (strStrip (strDropOne s)))).choices = m :: ms) :
    router llm run S C .idle (.line s :: rest) =
      (.translate (llm_request S C (strStrip (strDropOne s)))
        :: .display (echo_line S C (strStrip m.content))
        :: .confirm (strStrip m.content)
        :: (router llm run S C (.awaiting (strStrip m.content)) rest).1,
        (router llm run S C (.awaiting (strStrip m.content)) rest).2) := by
  have hne := bang_not_exit s hb
  simp [router, hne, hb, call_llm_cons llm S C _ m ms h]

theorem router_confirm_yes (llm : CallRecord → ChatResponse) (run : String → ExecOutcome)
    (S C : Option String) (cmd conf : String) (rest : List InputEvent)
    (h : strLower (strStrip conf) = "yes" ∨ strLower (strStrip conf) = "y") :
    router llm run S C (.awaiting cmd) (.line conf :: rest) =
      (.exec cmd :: .display (execute_command run cmd) :: (router llm run S C .idle rest).1,
        (router llm run S C .idle rest).2) := by
  simp [router, h]

theorem router_confirm_no (llm : CallRecord → ChatResponse) (run : String → ExecOutcome)
    (S C : Option String) (cmd conf : String) (rest : List InputEvent)
    (h : ¬ (strLower (strStrip conf) = "yes" ∨ strLower (strStrip conf) = "y")) :
    router llm run S C (.awaiting cmd) (.line conf :: rest) =
      (.display "Command execution skipped." :: (router llm run S C .idle rest).1,
        (router llm run S C .idle rest).2) := by
  simp [router, h]

theorem detect_shell_some_fallback (f : String) :
    detect_shell none (some f) =
      (if strContains f "bash" = true then "bash"
       else if strContains (strLower f) "powershell" = true then "powershell"
       else if strContains (strLower f) "cmd" = true then "cmd"
       else "unknown") := by
  simp only [detect_shell, envOr]

theorem detect_shell_some_primary (p : String) (f : Option String) (hp : p ≠ "") :
    detect_shell (some p) f =
      (if strContains p "bash" = true then "bash"
       else if strContains (strLower p) "powershell" = true then "powershell"
       else if strContains (strLower p) "cmd" = true then "cmd"
       else "unknown") := by
  simp only [detect_shell, envOr]
  rw [if_neg hp]

/-- Claim C1, counterexample. The claim says an empty or malformed completion
is surfaced as a `TranslationError`, recovered at the Router: error text
displayed, no command executed, no confirmation requested, loop continues.
The code does neither: an empty completion yields the empty command, which
is put through the confirmation gate and executed on "y"; a malformed
completion (no choices) raises an exception no handler catches, so the
session crashes. -/
theorem c1_counterexample :
    Effect.confirm "" ∈ (main_loop llmEmptyContent runStub none none
        [.line "!list files", .line "y"]).1 ∧
    Effect.exec "" ∈ (main_loop llmEmptyContent runStub none none
        [.line "!list files", .line "y"]).1 ∧
    (main_loop llmNoChoices runStub none none [.line "!list files"]).2 = LoopExit.crashed := by
  decide

/-- Claim C1, amended. If the model reply is malformed (no choices), the
exception escapes every handler of the interactive loop: the session
crashes right after the single translation call. If the model reply is an
empty completion, no error is raised: `call_llm` returns the empty string
and the Router proceeds to request confirmation of the empty command. -/
theorem c1_translation_failure_behavior (llm : CallRecord → ChatResponse)
    (run : String → ExecOutcome) (S C : Option String) (s : String)
    (hbang : strStartsWith s "!" = true) :
    ((llm (llm_request S C (strStrip (strDropOne s)))).choices = [] →
      main_loop llm run S C [.line s] =
        ([.translate (llm_request S C (strStrip (strDropOne s)))], .crashed)) ∧
    (∀ m ms, (llm (llm_request S C (strStrip (strDropOne s)))).choices = m :: ms →
      strStrip m.content = "" →
      Effect.confirm "" ∈ (main_loop llm run S C [.line s]).1) := by
  constructor
  · intro h0
    exact router_bang_crash llm run S C s [] hbang h0
  · intro m ms hresp hempty
    have hro := router_bang_ok llm run S C s [] m ms hbang hresp
    have : main_loop llm run S C [.line s] =
        (.translate (llm_request S C (strStrip (strDropOne s)))
          :: .display (echo_line S C (strStrip m.content))
          :: .confirm (strStrip m.content)
          :: (router llm run S C (.awaiting (strStrip m.content)) []).1,
          (router llm run S C (.awaiting (strStrip m.content)) []).2) := hro
    rw [this, hempty]
    simp

/-- Witness for C1 (amended): a malformed reply crashes the loop. -/
theorem c1_translation_failure_behavior_witness :
    main_loop llmNoChoices runStub none none [.line "!x"] =
      ([.translate (llm_request none none (strStrip (strDropOne "!x")))], .crashed) :=
  (c1_translation_failure_behavior llmNoChoices runStub none none "!x" (by decide)).1 rfl

/-- Claim C2: a `!`-line causes exactly one translation-capability call; the
execution capability is then called exactly once (after the translation) iff
the confirmation line, stripped and lowercased, is "yes" or "y"; otherwise
it is called zero times and the skip notice is displayed. Stated for a
model reply with a first choice (a malformed reply is claim C1's concern). -/
theorem c2_trigger_confirmation_gate (llm : CallRecord → ChatResponse)
    (run : String → ExecOutcome) (S C : Option String) (s conf : String)
    (m : ChatMessage) (ms : List ChatMessage)
    (hbang : strStartsWith s "!" = true)
    (hresp : (llm (llm_request S C (strStrip (strDropOne s)))).choices = m :: ms) :
    ((main_loop llm run S C [.line s, .line conf]).1.filter isCapabilityCall =
      if strLower (strStrip conf) = "yes" ∨ strLower (strStrip conf) = "y" then
        [.translate (llm_request S C (strStrip (strDropOne s))), .exec (strStrip m.content)]
      else
        [.translate (llm_request S C (strStrip (strDropOne s)))]) ∧
    (¬ (strLower (strStrip conf) = "yes" ∨ strLower (strStrip conf) = "y") →
      Effect.display "Command execution skipped." ∈
        (main_loop llm run S C [.line s, .line conf]).1) := by
  have hne := bang_not_exit s hbang
  have hcall := call_llm_cons llm S C (strStrip (strDropOne s)) m ms hresp
  by_cases hc : strLower (strStrip conf) = "yes" ∨ strLower (strStrip conf) = "y"
  · refine ⟨?_, fun hn => absurd hc hn⟩
    simp [main_loop, router, hne, hbang, hcall, hc, isCapabilityCall, List.filter]
  · refine ⟨?_, fun _ => ?_⟩
    · simp [main_loop, router, hne, hbang, hcall, hc, isCapabilityCall, List.filter]
    · simp [main_loop, router, hne, hbang, hcall, hc]

/-- Witness for C2: "!list files here" then "y" gives translation then
execution of the suggested command. -/
theorem c2_trigger_confirmation_gate_witness :
    (main_loop llmLs runStub none none [.line "!list files here", .line "y"]).1.filter
        isCapabilityCall =
      if strLower (strStrip "y") = "yes" ∨ strLower (strStrip "y") = "y" then
        [.translate (llm_request none none (strStrip (strDropOne "!list files here"))),
          .exec (strStrip (ChatMessage.mk "assistant" "ls -la").content)]
      else
        [.translate (llm_request none none (strStrip (strDropOne "!list files here")))] :=
  (c2_trigger_confirmation_gate llmLs runStub none none "!list files here" "y"
    ⟨"assistant", "ls -la"⟩ [] (by decide) rfl).1

/-- Claim C3, counterexample. The claim says any primary value containing
"cmd" yields cmd; but "cmdbash" contains "cmd" and `detect_shell` returns
"bash", because the "bash" check runs first. -/
theorem c3_counterexample :
    strContains "cmdbash" "cmd" = true ∧
    detect_shell (some "cmdbash") none = "bash" ∧
    detect_shell (some "cmdbash") none ≠ "cmd" := by
  decide

/-- Claim C3, amended: a primary value containing "bash" yields bash; a
primary value containing "cmd" yields cmd provided it contains neither
"bash" (case-sensitively) nor "powershell" (case-insensitively); a
case-insensitive "powershell" match on the fallback yields powershell
provided the value does not contain "bash" case-sensitively; absence of
both variables yields unknown, never a failure. -/
theorem c3_shell_detection :
    (∀ p f, strContains p "bash" = true → detect_shell (some p) f = "bash") ∧
    (∀ p f, strContains p "cmd" = true → strContains p "bash" = false →
      strContains (strLower p) "powershell" = false → detect_shell (some p) f = "cmd") ∧
    (∀ f, strContains (strLower f) "powershell" = true → strContains f "bash" = false →
      detect_shell none (some f) = "powershell") ∧
    detect_shell none none = "unknown" := by
  refine ⟨?_, ?_, ?_, by decide⟩
  · intro p f h
    have hp : p ≠ "" := by intro he; rw [he] at h; exact absurd h (by decide)
    rw [detect_shell_some_primary p f hp, if_pos h]
  · intro p f h1 h2 h3
    have hp : p ≠ "" := by intro he; rw [he] at h1; exact absurd h1 (by decide)
    have h4 : strContains (strLower p) "cmd" = true :=
      strContains_lower p "cmd" (by decide) h1
    rw [detect_shell_some_primary p f hp]
    simp [h2, h3, h4]
  · intro f h1 h2
    rw [detect_shell_some_fallback f]
    simp [h1, h2]

/-- Witness for C3 (amended), at concrete environment values. -/
theorem c3_shell_detection_witness :
    detect_shell (some "/bin/bash") none = "bash" ∧
    detect_shell (some "cmd.exe") none = "cmd" ∧
    detect_shell none (some "PowerShell") = "powershell" :=
  ⟨c3_shell_detection.1 "/bin/bash" none (by decide),
   c3_shell_detection.2.1 "cmd.exe" none (by decide) (by decide) (by decide),
   c3_shell_detection.2.2.1 "PowerShell" (by decide) (by decide)⟩

/-- Claim C4, counterexample. The claim says the fallback match is
case-insensitive for every keyword, including "bash"; but with the primary
unset and the fallback "BASH", `detect_shell` returns "unknown" because the
"bash" check never lowercases its operand. -/
theorem c4_counterexample :
    strContains (strLower "BASH") "bash" = true ∧
    detect_shell none (some "BASH") = "unknown" := by
  decide

/-- Claim C4, amended: on the fallback variable, matching is
case-insensitive for "powershell" and "cmd" but case-sensitive for "bash";
each keyword wins only when no earlier check in the order
bash, powershell, cmd matched; any unmatched value yields unknown. -/
theorem c4_fallback_case_sensitivity :
    (∀ f, strContains f "bash" = true → detect_shell none (some f) = "bash") ∧
    (∀ f, strContains (strLower f) "powershell" = true → strContains f "bash" = false →
      detect_shell none (some f) = "powershell") ∧
    (∀ f, strContains (strLower f) "cmd" = true → strContains f "bash" = false →
      strContains (strLower f) "powershell" = false → detect_shell none (some f) = "cmd") ∧
    (∀ f, strContains f "bash" = false → strContains (strLower f) "powershell" = false →
      strContains (strLower f) "cmd" = false → detect_shell none (some f) = "unknown") := by
  refine ⟨?_, ?_, ?_, ?_⟩
  · intro f h
    rw [detect_shell_some_fallback f, if_pos h]
  · intro f h1 h2
    rw [detect_shell_some_fallback f]
    simp [h1, h2]
  · intro f h1 h2 h3
    rw [detect_shell_some_fallback f]
    simp [h1, h2, h3]
  · intro f h1 h2 h3
    rw [detect_shell_some_fallback f]
    simp [h1, h2, h3]

/-- Witness for C4 (amended), at concrete fallback values. -/
theorem c4_fallback_case_sensitivity_witness :
    detect_shell none (some "bash") = "bash" ∧
    detect_shell none (some "C:\\WINDOWS\\system32\\cmd.exe") = "cmd" ∧
    detect_shell none (some "weirdshell") = "unknown" :=
  ⟨c4_fallback_case_sensitivity.1 "bash" (by decide),
   c4_fallback_case_sensitivity.2.2.1 "C:\\WINDOWS\\system32\\cmd.exe" (by decide) (by decide)
     (by decide),
   c4_fallback_case_sensitivity.2.2.2 "weirdshell" (by decide) (by decide) (by decide)⟩

/-- Claim C5: a command exiting non-zero has its captured stderr displayed
by `execute_command` (the failure is swallowed, not propagated), and the
Router goes on processing subsequent input events: the loop neither
terminates nor crashes on it. -/
theorem c5_nonzero_exit_reported (llm : CallRecord → ChatResponse)
    (run : String → ExecOutcome) (S C : Option String) (cmd : String)
    (rest : List InputEvent)
    (hfail : (run cmd).returncode ≠ 0)
    (hexit : strLower cmd ≠ "exit")
    (hbang : strStartsWith cmd "!" = false) :
    execute_command run cmd = (run cmd).stderr ∧
    main_loop llm run S C (.line cmd :: rest) =
      (.exec cmd :: .display ((run cmd).stderr) :: (main_loop llm run S C rest).1,
        (main_loop llm run S C rest).2) := by
  have he : execute_command run cmd = (run cmd).stderr := by
    unfold execute_command
    rw [if_neg hfail]
  refine ⟨he, ?_⟩
  have hd := router_direct llm run S C cmd rest hexit hbang
  simp only [main_loop]
  rw [hd, he]

/-- Witness for C5: a failing "dir" shows "err" and the loop continues. -/
theorem c5_nonzero_exit_reported_witness :
    execute_command runFailStub "dir" = (runFailStub "dir").stderr ∧
    main_loop llmLs runFailStub none none [.line "dir"] =
      (.exec "dir" :: .display ((runFailStub "dir").stderr)
        :: (main_loop llmLs runFailStub none none []).1,
        (main_loop llmLs runFailStub none none []).2) :=
  c5_nonzero_exit_reported llmLs runFailStub none none "dir" [] (by decide) (by decide)
    (by decide)

/-- Claim C6: any casing of the literal "exit" prints the farewell exactly
once, terminates the loop, and performs no capability call. -/
theorem c6_exit_terminates (llm : CallRecord → ChatResponse) (run : String → ExecOutcome)
    (S C : Option String) (s : String) (rest : List InputEvent)
    (h : strLower s = "exit") :
    main_loop llm run S C (.line s :: rest) = ([.display "Goodbye!"], .terminated) ∧
    (main_loop llm run S C (.line s :: rest)).1.filter isCapabilityCall = [] := by
  have hx : main_loop llm run S C (.line s :: rest) = ([.display "Goodbye!"], .terminated) :=
    router_exit llm run S C s rest h
  refine ⟨hx, ?_⟩
  rw [hx]
  decide

/-- Witness for C6 at input "EXIT". -/
theorem c6_exit_terminates_witness :
    main_loop llmLs runStub none none [.line "EXIT"] = ([.display "Goodbye!"], .terminated) ∧
    (main_loop llmLs runStub none none [.line "EXIT"]).1.filter isCapabilityCall = [] :=
  c6_exit_terminates llmLs runStub none none "EXIT" [] (by decide)

/-- Claim C7: a line that is neither "exit" (case-insensitively) nor
`!`-prefixed is dispatched directly: exactly one execution-capability call
with that line, zero translation calls, and no confirmation prompt. -/
theorem c7_direct_dispatch (llm : CallRecord → ChatResponse) (run : String → ExecOutcome)
    (S C : Option String) (s : String)
    (hexit : strLower s ≠ "exit") (hbang : strStartsWith s "!" = false) :
    main_loop llm run S C [.line s] = ([.exec s, .display (execute_command run s)], .ranOut) ∧
    (main_loop llm run S C [.line s]).1.filter isExecEffect = [.exec s] ∧
    (main_loop llm run S C [.line s]).1.filter isTranslateEffect = [] ∧
    (main_loop llm run S C [.line s]).1.filter isConfirmEffect = [] := by
  have hm : main_loop llm run S C [.line s] =
      ([.exec s, .display (execute_command run s)], .ranOut) := by
    have hd := router_direct llm run S C s [] hexit hbang
    simp only [main_loop]
    rw [hd]
    rfl
  refine ⟨hm, ?_, ?_, ?_⟩ <;> rw [hm] <;> simp [isExecEffect, isTranslateEffect, isConfirmEffect]

/-- Witness for C7 at input "dir". -/
theorem c7_direct_dispatch_witness :
    main_loop llmLs runStub none none [.line "dir"] =
      ([.exec "dir", .display (execute_command runStub "dir")], .ranOut) :=
  (c7_direct_dispatch llmLs runStub none none "dir" (by decide) (by decide)).1

/-- Claim C8: the translation step issues exactly one completion call, whose
record is the two-message exchange (system instruction from
`get_system_prompt` on the detected dialect; user content the instruction
with surrounding whitespace stripped) with `max_tokens = 50` and newline
stop, and the suggested command put before the user is the stripped content
of the first returned choice. -/
theorem c8_translation_request_shape (llm : CallRecord → ChatResponse)
    (run : String → ExecOutcome) (S C : Option String) (s : String)
    (m : ChatMessage) (ms : List ChatMessage)
    (hbang : strStartsWith s "!" = true)
    (hresp : (llm (llm_request S C (strStrip (strDropOne s)))).choices = m :: ms) :
    (main_loop llm run S C [.line s]).1.filter isTranslateEffect =
      [.translate (llm_request S C (strStrip (strDropOne s)))] ∧
    (llm_request S C (strStrip (strDropOne s))).messages =
      [⟨"system", get_system_prompt (detect_shell S C)⟩, ⟨"user", strStrip (strDropOne s)⟩] ∧
    (llm_request S C (strStrip (strDropOne s))).max_tokens = 50 ∧
    (llm_request S C (strStrip (strDropOne s))).stop = ["\n"] ∧
    Effect.confirm (strStrip m.content) ∈ (main_loop llm run S C [.line s]).1 := by
  have hro := router_bang_ok llm run S C s [] m ms hbang hresp
  have hm : main_loop llm run S C [.line s] =
      ([.translate (llm_request S C (strStrip (strDropOne s))),
        .display (echo_line S C (strStrip m.content)), .confirm (strStrip m.content)],
        .ranOut) := by
    simp only [main_loop]
    rw [hro]
    rfl
  refine ⟨?_, rfl, rfl, rfl, ?_⟩
  · rw [hm]
    simp [isTranslateEffect]
  · rw [hm]
    simp

/-- Witness for C8 at "!list files here". -/
theorem c8_translation_request_shape_witness :
    (llm_request none none (strStrip (strDropOne "!list files here"))).max_tokens = 50 ∧
    (llm_request none none (strStrip (strDropOne "!list files here"))).stop = ["\n"] :=
  ⟨(c8_translation_request_shape llmLs runStub none none "!list files here"
      ⟨"assistant", "ls -la"⟩ [] (by decide) rfl).2.2.1,
   (c8_translation_request_shape llmLs runStub none none "!list files here"
      ⟨"assistant", "ls -la"⟩ [] (by decide) rfl).2.2.2.1⟩

/-- Claim C9: the composed system prompt embeds the dialect name verbatim,
for every dialect value including "unknown". -/
theorem c9_prompt_contains_dialect :
    (∀ shell : String, ∃ p q, get_system_prompt shell = p ++ shell ++ q) ∧
    strContains (get_system_prompt "bash") "bash" = true ∧
    strContains (get_system_prompt "powershell") "powershell" = true ∧
    strContains (get_system_prompt "cmd") "cmd" = true ∧
    strContains (get_system_prompt "unknown") "unknown" = true := by
  refine ⟨fun shell => ⟨_, _, rfl⟩, by decide, by decide, by decide, by decide⟩

/-- Claim C10: the exit comparison uses the untrimmed line. A line made of
the word "exit" in any casing with at least one surrounding whitespace
character does not terminate the session; it is dispatched as a direct
command to the execution capability. -/
theorem c10_exit_untrimmed (llm : CallRecord → ChatResponse) (run : String → ExecOutcome)
    (S C : Option String) (s core : String) (pre post : List Char)
    (hdecomp : s.data = pre ++ (core.data ++ post))
    (hws : ∀ c ∈ pre, c.isWhitespace = true)
    (_hws2 : ∀ c ∈ post, c.isWhitespace = true)
    (hne : pre ≠ [] ∨ post ≠ [])
    (hcore : strLower core = "exit") :
    strLower s ≠ "exit" ∧
    main_loop llm run S C [.line s] =
      ([.exec s, .display (execute_command run s)], .ranOut) := by
  have hml : core.data.map Char.toLower = ['e', 'x', 'i', 't'] := congrArg String.data hcore
  have hlen : core.data.length = 4 := by
    have := congrArg List.length hml
    simpa using this
  have hnexit : strLower s ≠ "exit" := by
    intro he
    have hd : s.data.map Char.toLower = ['e', 'x', 'i', 't'] := congrArg String.data he
    have hlens : s.data.length = 4 := by
      have := congrArg List.length hd
      simpa using this
    rw [hdecomp] at hlens
    simp only [List.length_append, hlen] at hlens
    have hp0 : pre.length = 0 ∧ post.length = 0 := by omega
    rcases hne with h | h
    · exact h (List.length_eq_zero.mp hp0.1)
    · exact h (List.length_eq_zero.mp hp0.2)
  have hnb : ¬ strStartsWith s "!" = true := by
    intro hb
    obtain ⟨t, ht⟩ := bang_head s hb
    rw [hdecomp] at ht
    cases pre with
    | cons c pre2 =>
        rw [List.cons_append] at ht
        injection ht with h1 _
        have hw := hws c (by simp)
        rw [h1] at hw
        exact absurd hw (by decide)
    | nil =>
        rw [List.nil_append] at ht
        cases hcd : core.data with
        | nil => rw [hcd] at hlen; simp at hlen
        | cons d rest =>
            rw [hcd, List.cons_append] at ht
            injection ht with h1 _
            rw [hcd, List.map_cons] at hml
            injection hml with h2 _
            rw [h1] at h2
            exact absurd h2 (by decide)
  have hb2 : strStartsWith s "!" = false := by simpa using hnb
  refine ⟨hnexit, ?_⟩
  have hd := router_direct llm run S C s [] hnexit hb2
  simp only [main_loop]
  rw [hd]
  rfl

/-- Witness for C10 at input " exit". -/
theorem c10_exit_untrimmed_witness :
    strLower " exit" ≠ "exit" ∧
    main_loop llmLs runStub none none [.line " exit"] =
      ([.exec " exit", .display (execute_command runStub " exit")], .ranOut) :=
  c10_exit_untrimmed llmLs runStub none none " exit" "exit" [' '] [] (by decide)
    (by decide) (by decide) (Or.inl (by decide)) (by decide)
